import Mathlib

/-!
Verification of the conversational-memory engine (neko-ai).

This file shallowly embeds the core read/write pipeline of the repository:
the FAISS vector store (`src/core/memory_store.py`), the Neo4j graph store
(`src/db/neo4j_store.py`), the MySQL conversation-history access
(`src/db/mysql_store.py`), the rerank helpers (`src/utils/rerank.py`,
`src/core/embedding.py`) and the memory orchestrator
(`src/services/memory_service.py`).

Modelling conventions:
* Similarities, distances and embedding coordinates are exact rationals
  (the Python floats 0.95, 0.7, 0.1, 0.8 are the exact decimals
  19/20, 7/10, 1/10, 4/5).
* Timestamps are natural numbers drawn from a monotonically increasing
  clock threaded through the state; `Memory.generate_timestamp`
  (microsecond wall-clock strings, specified as globally unique and
  monotonic) is modelled as reading and incrementing that clock.
* A Python function that returns the empty string "" in place of a
  timestamp is modelled as returning `none : Option Nat`.
* External collaborators (embedding provider, rerank model/API, jieba
  topic extraction) are oracle parameters; fallible calls are
  `Except Unit`-valued, with `.error` standing for a raised exception,
  a non-200 HTTP status or a timeout.
-/

/-- One record of the FAISS store's parallel `texts` list together with the
vector stored at the same position of the ANN index
(`FAISSMemoryStore.add_text` keeps them aligned). -/
structure FRec where
  text : String
  timestamp : Nat
  conversation_id : Option Nat
  embedding : List ℚ
deriving DecidableEq, Repr

/-- A search hit as built by `FAISSMemoryStore.search` (a `Memory` whose
transient `similarity` field is populated). -/
structure SRes where
  user_message : String
  ai_response : String
  timestamp : Nat
  similarity : ℚ
  conversation_id : Option Nat
deriving DecidableEq, Repr

/-- Squared L2 distance between two vectors, the quantity
`faiss.IndexFlatL2.search` reports as `distances`. -/
def sqDist (q v : List ℚ) : ℚ :=
  ((q.zip v).map (fun p => (p.1 - p.2) * (p.1 - p.2))).sum

/-- Dimension correction used by `add_text`/`search`: a vector that is too
long is truncated, a vector that is too short is zero-padded
(`memory_store.py` lines 103-110 and 219-231). -/
def adjustDim (dim : Nat) (v : List ℚ) : List ℚ :=
  v.take dim ++ List.replicate (dim - v.length) 0

/-- `FAISSMemoryStore.add_text`: append the record to the parallel list and
the (dimension-corrected) vector to the index. -/
def add_text (dim : Nat) (store : List FRec) (text : String) (embedding : List ℚ)
    (timestamp : Nat) (conversation_id : Option Nat) : List FRec :=
  store ++ [⟨text, timestamp, conversation_id, adjustDim dim embedding⟩]

/-- Descending-similarity order used to sort FAISS search results
(`search_results.sort(key=lambda x: x.similarity, reverse=True)`). -/
def simDesc (a b : SRes) : Prop := b.similarity ≤ a.similarity

instance : DecidableRel simDesc := fun _ _ => inferInstanceAs (Decidable (_ ≤ _))

instance : IsTotal SRes simDesc := ⟨fun a b => le_total b.similarity a.similarity⟩

instance : IsTrans SRes simDesc := ⟨fun _ _ _ h h2 => le_trans h2 h⟩

/-- Ascending-distance order of the raw ANN results (`index.search` returns
nearest neighbours by increasing L2 distance). -/
def distAsc (a b : ℚ × FRec) : Prop := a.1 ≤ b.1

instance : DecidableRel distAsc := fun _ _ => inferInstanceAs (Decidable (_ ≤ _))

instance : IsTotal (ℚ × FRec) distAsc := ⟨fun a b => le_total a.1 b.1⟩

instance : IsTrans (ℚ × FRec) distAsc := ⟨fun _ _ _ h h2 => le_trans h h2⟩

/-- Python `str.split(sep)` for a non-empty separator, on character lists.
The explicit fuel (any value at least the list length) only makes the
structural recursion visible; every step consumes at least one character. -/
def splitOnCharsAux (sep : List Char) : Nat → List Char → List Char → List (List Char)
  | _, [], acc => [acc]
  | 0, l, acc => [acc ++ l]
  | Nat.succ n, c :: rest, acc =>
    if sep.isPrefixOf (c :: rest) then
      acc :: splitOnCharsAux sep n ((c :: rest).drop sep.length) []
    else splitOnCharsAux sep n rest (acc ++ [c])

/-- Python `str.split(sep)` (also the semantics of Lean's
`String.splitOn`): split at every non-overlapping occurrence of `sep`,
keeping empty pieces. -/
def splitOnChars (sep l : List Char) : List (List Char) :=
  if sep = [] then [l] else splitOnCharsAux sep l.length l []

/-- Python `s.replace(pat, "")`: removing every non-overlapping occurrence
of `pat` is joining the pieces `s.split(pat)` leaves. -/
def removeAll (pat l : List Char) : List Char :=
  (splitOnChars pat l).flatten

/-- Post-processing of one raw ANN hit in `FAISSMemoryStore.search`:
convert the L2 distance to `1/(1+d)`, drop hits from other conversations
when a filter is set, and parse the stored text back into the user/assistant
parts — `text.split("\n助手: ")` then `parts[0].replace("用户: ", "")` —
(hits whose text does not split into exactly two parts are dropped,
mirroring the `len(parts) == 2` guard). -/
def processHit (cid : Option Nat) (dr : ℚ × FRec) : Option SRes :=
  let similarity : ℚ := 1 / (1 + dr.1)
  let r := dr.2
  if cid ≠ none ∧ r.conversation_id ≠ cid then none
  else
    let parts := splitOnChars "\n助手: ".data r.text.data
    if h : parts.length = 2 then
      some { user_message := ⟨removeAll "用户: ".data (parts.get ⟨0, by omega⟩)⟩
             ai_response := ⟨parts.get ⟨1, by omega⟩⟩
             timestamp := r.timestamp
             similarity := similarity
             conversation_id := r.conversation_id }
    else none

/-- The raw ANN call of `FAISSMemoryStore.search`:
`index.search(query, min(3k, ntotal))` returns the `min(3k, ntotal)`
stored vectors nearest to the (dimension-corrected) query by L2 distance. -/
def ann_hits (dim : Nat) (store : List FRec) (query_embedding : List ℚ) (k : Nat) :
    List (ℚ × FRec) :=
  ((store.map fun r =>
      (sqDist (adjustDim dim query_embedding) r.embedding, r)).insertionSort
    distAsc).take (min (k * 3) store.length)

/-- `FAISSMemoryStore.search`: over-fetch `min(3k, ntotal)` nearest
neighbours, post-process and filter them, sort by descending similarity and
truncate to `k`. -/
def memory_store_search (dim : Nat) (store : List FRec) (query_embedding : List ℚ)
    (k : Nat) (conversation_id : Option Nat) : List SRes :=
  if store.isEmpty then [] else
    (((ann_hits dim store query_embedding k).filterMap
        (processHit conversation_id)).insertionSort simDesc).take k

/-- A Neo4j `Memory` node as created by
`Neo4jDatabase.create_memory_with_relations`. -/
structure GNode where
  timestamp : Nat
  user_message_preview : String
  ai_response_preview : String
  topic : String
  conversation_id : Option Nat
deriving DecidableEq, Repr

/-- One direction of a `SIMILAR_TO` relationship; the Cypher write creates
both directions, so an undirected edge appears twice in `edges`. -/
structure GEdge where
  src : Nat
  dst : Nat
  similarity : ℚ
  cross_conversation : Bool
deriving DecidableEq, Repr

/-- The graph store state: `Memory` nodes and `SIMILAR_TO` relationships. -/
structure GraphState where
  nodes : List GNode
  edges : List GEdge
deriving DecidableEq, Repr

/-- The 100-character preview stored on a node (`user_message[:100] + "..."`
when longer than 100). -/
def preview (s : String) : String :=
  if s.length > 100 then s.take 100 ++ "..." else s

/-- Existence of a `SIMILAR_TO` path of length between 1 and `fuel` hops
between `a` and `b`, traversed undirected exactly as the Cypher pattern
`(m1)-[:SIMILAR_TO*1..10]-(m2)`. (A walk that revisits nodes can always be
shortened to a simple path of no greater length, so walk-reachability
coincides with Cypher's distinct-relationship path semantics here.) -/
def reachWithin (edges : List GEdge) : Nat → Nat → Nat → Bool
  | 0, _, _ => false
  | Nat.succ n, a, b => edges.any fun e =>
      (e.src == a && (e.dst == b || reachWithin edges n e.dst b)) ||
      (e.dst == a && (e.src == b || reachWithin edges n e.src b))

/-- The duplicate test of the first loop of `create_memory_with_relations`:
a candidate is considered only when it is from the same conversation or no
conversation is given, and counts as a duplicate when its similarity is
strictly above 0.95 (`memory.similarity > 0.95`). -/
def dedup_pred (conversation_id : Option Nat) (m : SRes) : Bool :=
  decide ((m.conversation_id = conversation_id ∨ conversation_id = none) ∧
    (19 / 20 : ℚ) < m.similarity)

/-- The per-candidate threshold: raised to `max(threshold + 0.1, 0.8)` only
when the candidate is from a different conversation AND the new memory is
conversation-scoped (`if not same_conversation and conversation_id is not
None`). -/
def effective_threshold (similarity_threshold : ℚ) (conversation_id : Option Nat)
    (m : SRes) : ℚ :=
  if ¬m.conversation_id = conversation_id ∧ ¬conversation_id = none then
    max (similarity_threshold + 1 / 10) (4 / 5)
  else similarity_threshold

/-- The body of the relationship-creation loop of
`create_memory_with_relations` for one candidate `m`, acting on the pair
(current graph, processed timestamps). A candidate inside
`[actual_threshold, 0.95]` (the upper bound is INCLUSIVE:
`actual_threshold <= memory.similarity <= 0.95`) whose node is not already
connected to the new node by a path of at most 10 hops gets a bidirectional
weighted edge; the Cypher `MATCH ... WHERE m1 <> m2` only fires when the
candidate node exists and differs from the new one, while the timestamp is
marked processed either way. -/
def relation_step (similarity_threshold : ℚ) (conversation_id : Option Nat) (ts : Nat)
    (acc : GraphState × List Nat) (m : SRes) : GraphState × List Nat :=
  let gcur := acc.1
  let processed := acc.2
  let same_conversation := m.conversation_id = conversation_id
  let actual_threshold := effective_threshold similarity_threshold conversation_id m
  if m.timestamp ∉ processed ∧ actual_threshold ≤ m.similarity ∧
      m.similarity ≤ 19 / 20 then
    if reachWithin gcur.edges 10 ts m.timestamp then (gcur, processed)
    else
      let gnext :=
        if (gcur.nodes.any fun n => n.timestamp == m.timestamp) ∧ ts ≠ m.timestamp then
          ⟨gcur.nodes,
            gcur.edges ++
              [⟨ts, m.timestamp, m.similarity, !same_conversation⟩,
               ⟨m.timestamp, ts, m.similarity, !same_conversation⟩]⟩
        else gcur
      (gnext, processed ++ [m.timestamp])
  else (gcur, processed)

/-- Descending-similarity order on candidates
(`sorted(similar_memories, key=lambda x: x.similarity, reverse=True)`). -/
def candDesc (a b : SRes) : Prop := b.similarity ≤ a.similarity

instance : DecidableRel candDesc := fun _ _ => inferInstanceAs (Decidable (_ ≤ _))

/-- `Neo4jDatabase.create_memory_with_relations`. It receives NO timestamp
from its caller: it generates its own via `Memory.generate_timestamp()`
(modelled by reading and incrementing `clock`). Returns
(returned timestamp, new clock, new graph). If some candidate passes the
duplicate test, that candidate's timestamp is returned and nothing is
written; otherwise a node carrying the freshly generated timestamp is
created and the relationship loop runs over the candidates sorted by
descending similarity. `topicFn` stands for jieba topic extraction. -/
def create_memory_with_relations (topicFn : String → String)
    (user_message ai_response : String) (similar_memories : List SRes)
    (similarity_threshold : ℚ) (conversation_id : Option Nat)
    (clock : Nat) (g : GraphState) : Nat × Nat × GraphState :=
  let timestamp := clock
  let topic := topicFn user_message
  match similar_memories.find? (dedup_pred conversation_id) with
  | some m => (m.timestamp, clock + 1, g)
  | none =>
    let node : GNode :=
      ⟨timestamp, preview user_message, preview ai_response, topic, conversation_id⟩
    let g1 : GraphState := ⟨g.nodes ++ [node], g.edges⟩
    let sorted_memories := similar_memories.insertionSort candDesc
    let result := sorted_memories.foldl
      (relation_step similarity_threshold conversation_id timestamp) (g1, [])
    (timestamp, clock + 1, result.1)

/-- One row of the MySQL `conversation_messages` table. Rows are kept in
`created_at` (insertion) order, the order the auto-increment primary key
and `ORDER BY created_at` expose. -/
structure MsgRow where
  conversation_id : Nat
  timestamp : Nat
  user_message : String
  ai_response : String
deriving DecidableEq, Repr

/-- The whole cross-store state threaded through the write path:
the timestamp clock, the number of embedding-provider calls made so far,
the FAISS store, the Neo4j graph and the MySQL history table. -/
structure SysState where
  clock : Nat
  embed_calls : Nat
  faiss : List FRec
  graph : GraphState
  mysql : List MsgRow
deriving DecidableEq, Repr

/-- `MemoryService._save_to_memory_stores`: compute the embedding (counted;
an embedding failure aborts with `False` before any store is touched),
append to FAISS, search the just-updated FAISS index (k=10, NO conversation
filter) for relationship/dedup candidates, and hand them to the graph
write. The timestamp returned by `create_memory_with_relations` is
discarded, exactly as in the source. -/
def save_to_memory_stores (dim : Nat) (embedFn : String → Except Unit (List ℚ))
    (topicFn : String → String) (similarity_threshold : ℚ)
    (user_message ai_response : String) (timestamp : Nat)
    (conversation_id : Option Nat) (full_text : String) (st : SysState) :
    Bool × SysState :=
  let st0 := { st with embed_calls := st.embed_calls + 1 }
  match embedFn full_text with
  | Except.error _ => (false, st0)
  | Except.ok embedding =>
    let faiss1 := add_text dim st0.faiss full_text embedding timestamp conversation_id
    let similar_memories := memory_store_search dim faiss1 embedding 10 none
    let r := create_memory_with_relations topicFn user_message ai_response
      similar_memories similarity_threshold conversation_id st0.clock st0.graph
    (true, { st0 with faiss := faiss1, clock := r.2.1, graph := r.2.2 })

/-- `MemoryService.save_conversation`. Empty input short-circuits to ""
(modelled `none`) before anything is generated or written; `gen_fail`
models an unexpected exception raised inside the outer `try` (the only
operations there are logging and `Memory.generate_timestamp`, both before
any store write), which the blanket `except` turns into "". Otherwise the
service generates its timestamp, runs `_save_to_memory_stores` (whose
success flag is only logged) and returns its own timestamp. -/
def save_conversation (dim : Nat) (embedFn : String → Except Unit (List ℚ))
    (topicFn : String → String) (similarity_threshold : ℚ) (gen_fail : Bool)
    (user_message ai_response : String) (conversation_id : Option Nat)
    (st : SysState) : Option Nat × SysState :=
  if user_message = "" ∨ ai_response = "" then (none, st)
  else if gen_fail then (none, st)
  else
    let full_text := "用户: " ++ user_message ++ "\n助手: " ++ ai_response
    let timestamp := st.clock
    let st1 := { st with clock := st.clock + 1 }
    let r := save_to_memory_stores dim embedFn topicFn similarity_threshold
      user_message ai_response timestamp conversation_id full_text st1
    (some timestamp, r.2)

/-- Case-insensitive substring match, the semantics of the Cypher regex
`(?i).*keyword.*` used by the keyword queries. -/
def containsCI (s kw : String) : Bool :=
  let sl := s.data.map Char.toLower
  let kl := kw.data.map Char.toLower
  kl.isEmpty || decide ((splitOnChars kl sl).length ≥ 2)

/-- Node match of `clear_memories_by_keyword`: keyword against the two
previews or the topic. -/
def matchesKeyword (kw : String) (n : GNode) : Bool :=
  containsCI n.user_message_preview kw || containsCI n.ai_response_preview kw ||
    containsCI n.topic kw

/-- A Python runtime value as far as the keyword-clear call boundary is
concerned: `Neo4jDatabase.clear_memories_by_keyword` returns a bare `int`,
while its caller expects an `(int, list)` tuple. -/
inductive PyV where
  | int (n : Nat)
  | pair (c : Nat) (ts : List Nat)
deriving DecidableEq, Repr

/-- Python tuple unpacking `a, b = v`: succeeds on a pair, raises
`TypeError` (modelled `Except.error`) on an `int`. -/
def unpack_pair : PyV → Except Unit (Nat × List Nat)
  | PyV.int _ => Except.error ()
  | PyV.pair c ts => Except.ok (c, ts)

/-- `Neo4jDatabase.clear_memories_by_keyword`: detach-delete every matching
node (removing all edges touching it) and return ONLY the deleted count as
a bare `int` — the `deleted_timestamps` collected by the Cypher query are
logged and dropped. -/
def neo4j_clear_memories_by_keyword (g : GraphState) (kw : String) :
    PyV × GraphState :=
  let matched := g.nodes.filter (matchesKeyword kw)
  let remaining := g.nodes.filter fun n => !matchesKeyword kw n
  let matchedTs := matched.map (fun n => n.timestamp)
  let edges2 := g.edges.filter fun e =>
    !(matchedTs.contains e.src) && !(matchedTs.contains e.dst)
  (PyV.int matched.length, ⟨remaining, edges2⟩)

/-- `MemoryService.clear_memories_by_keyword`: the service unpacks the
Neo4j return value as `deleted_count, timestamps = ...`. Because the Neo4j
method returns a bare `int`, the unpacking raises `TypeError`, the blanket
`except` catches it after the graph deletion already ran, and `(0, [])` is
returned with the FAISS store untouched. The `ok` branch mirrors the
unreachable remainder of the source. -/
def service_clear_memories_by_keyword (st : SysState) (kw : String) :
    (Nat × List Nat) × SysState :=
  let r := neo4j_clear_memories_by_keyword st.graph kw
  let st1 := { st with graph := r.2 }
  match unpack_pair r.1 with
  | Except.error _ => ((0, []), st1)
  | Except.ok cts => (cts, st1)

/-- `MySQLDatabase.get_conversation_messages`: filter by conversation,
order by `created_at` ascending or descending, then apply OFFSET/LIMIT.
With `sort_asc=True` and offset 0 this returns the OLDEST `limit` rows. -/
def get_conversation_messages (rows : List MsgRow) (conversation_id : Nat)
    (limit offset : Nat) (sort_asc : Bool) : List MsgRow :=
  let f := rows.filter fun r => r.conversation_id == conversation_id
  let g := if sort_asc then f else f.reverse
  (g.drop offset).take limit

/-- A memory dict assembled on the read path (`memory_info` in
`memory_service.py`), including the fields `_rerank_memories` adds. -/
structure CtxMem where
  timestamp : Nat
  user_message : String
  ai_response : String
  similarity : Option ℚ
  source : String
  conversation_id : Option Nat
  relevance_score : Option ℚ := none
  source_order : Option Nat := none
  reranked : Bool := false
deriving DecidableEq, Repr

/-- Descending order on the re-sort of vector hits in `_retrieve_memories`
(`key=lambda x: x.similarity ... reverse=True`). -/
def ctxSimDesc (a b : SRes) : Prop := b.similarity ≤ a.similarity

instance : DecidableRel ctxSimDesc := fun _ _ => inferInstanceAs (Decidable (_ ≤ _))

/-- `MemoryService._retrieve_memories`. Returns the memory list, the
aligned source tags and the number of embedding-provider calls made.
Step 1 (MySQL history): with history context enabled and a conversation
given, fetch `window` rows ascending; when at least half the window was
returned (`len(messages) >= window_size / 2`) the function returns them
immediately with zero embedding calls. Step 2 (vector search) embeds the
query and merges FAISS hits deduplicated by timestamp. Step 3 (Neo4j
recency fallback) only runs when MySQL context is DISABLED. `recents` is
the graph store's node list ordered by `created_at DESC` as
`get_recent_memories` returns it. -/
def retrieve_memories (use_mysql_context : Bool) (window_size : Nat)
    (rows : List MsgRow) (dim : Nat) (faiss : List FRec) (recents : List GNode)
    (embedFn : String → List ℚ) (query : String) (max_memories : Nat)
    (conversation_id : Option Nat) : List CtxMem × List String × Nat :=
  let hist : List CtxMem :=
    match conversation_id with
    | some c =>
      if use_mysql_context then
        (get_conversation_messages rows c window_size 0 true).map fun m =>
          { timestamp := m.timestamp, user_message := m.user_message
            ai_response := m.ai_response, similarity := none
            source := "mysql_history", conversation_id := some c }
      else []
    | none => []
  if hist ≠ [] ∧ window_size ≤ 2 * hist.length then
    (hist, hist.map fun _ => "mysql_history", 0)
  else
    let embedding := embedFn query
    let similar := memory_store_search dim faiss embedding max_memories conversation_id
    let similar2 := similar.insertionSort ctxSimDesc
    let afterVec := similar2.foldl
      (fun acc s =>
        if acc.any fun m => m.timestamp == s.timestamp then acc
        else acc ++
          [{ timestamp := s.timestamp, user_message := s.user_message
             ai_response := s.ai_response, similarity := some s.similarity
             source := "vector_search", conversation_id := s.conversation_id }])
      hist
    let final :=
      if afterVec.length < max_memories ∧ use_mysql_context = false then
        let rel := (recents.filter fun n =>
            conversation_id == none || n.conversation_id == conversation_id).take
          (max_memories - afterVec.length)
        rel.foldl
          (fun acc n =>
            if acc.any fun m => m.timestamp == n.timestamp then acc
            else acc ++
              [{ timestamp := n.timestamp, user_message := n.user_message_preview
                 ai_response := n.ai_response_preview, similarity := none
                 source := "recent_neo4j", conversation_id := n.conversation_id }])
          afterVec
      else afterVec
    (final, final.map fun m => m.source, 1)

/-- The "用户: .../助手: ..." block formatting shared by the context
builders. -/
def formatContext (memories : List CtxMem) : String :=
  String.intercalate "\n" (memories.map fun m =>
    "用户: " ++ m.user_message ++ "\n助手: " ++ m.ai_response ++ "\n")

/-- `MemoryService.get_context`. Its own MySQL branch fetches the window
with `sort_asc=False` (NEWEST first) and returns whenever ANY rows came
back, bypassing `_retrieve_memories` entirely; the returned list is
therefore in reverse-chronological order and its length is bounded only by
the window size, not by `max_memories`. Returns (formatted context,
memories, embedding calls). -/
def get_context (use_mysql_context : Bool) (window_size : Nat) (rows : List MsgRow)
    (dim : Nat) (faiss : List FRec) (recents : List GNode)
    (embedFn : String → List ℚ) (query : String) (max_memories : Nat)
    (conversation_id : Option Nat) : String × List CtxMem × Nat :=
  let mysqlMems : List CtxMem :=
    match conversation_id with
    | some c =>
      if use_mysql_context then
        (get_conversation_messages rows c window_size 0 false).map fun m =>
          { timestamp := m.timestamp, user_message := m.user_message
            ai_response := m.ai_response, similarity := none
            source := "mysql", conversation_id := some c }
      else []
    | none => []
  if mysqlMems ≠ [] then (formatContext mysqlMems, mysqlMems, 0)
  else
    let r := retrieve_memories use_mysql_context window_size rows dim faiss recents
      embedFn query max_memories conversation_id
    (formatContext r.1, r.1, r.2.2)

/-- `rerank_documents` of `src/utils/rerank.py`: on disabled reranking or a
failed model call it returns the first `min(top_n, len(documents))` indices
in original order, each with neutral score 1.0; on success it sorts the
model scores descending and truncates. The oracle is the CrossEncoder
score list. -/
def rerank_documents_util (enabled : Bool) (oracle : Except Unit (List ℚ))
    (query : String) (documents : List String) (top_n : Nat) : List (Nat × ℚ) :=
  if documents = [] then []
  else if enabled = false then
    (List.range (min top_n documents.length)).map fun i => (i, 1)
  else
    match oracle with
    | Except.error _ => (List.range (min top_n documents.length)).map fun i => (i, 1)
    | Except.ok scores =>
      let scored := scores.enum
      let sorted := scored.insertionSort fun a b => b.2 ≤ a.2
      sorted.take (min top_n sorted.length)

/-- `rerank_documents` of `src/core/embedding.py` — the function
`memory_service.py` actually imports. When reranking is disabled, the HTTP
call fails or any exception is raised it returns the EMPTY list; on success
it returns the provider's `results` array unchanged (scored index pairs). -/
def rerank_documents_api (enabled : Bool) (oracle : Except Unit (List (Nat × ℚ)))
    (query : String) (documents : List String) (top_n : Nat) : List (Nat × ℚ) :=
  if documents = [] then []
  else if enabled = false then []
  else
    match oracle with
    | Except.error _ => []
    | Except.ok results => results

/-- The loop body of `_rerank_memories` over the provider's results: a
returned index in range (`0 <= idx < len(memories)`) appends a copy of that
memory annotated with its relevance score, original position and `reranked`
flag; an out-of-range index is skipped. -/
def rerank_build (memories : List CtxMem) (acc : List CtxMem) (r : Nat × ℚ) :
    List CtxMem :=
  match memories[r.1]? with
  | some m => acc ++
      [{ m with relevance_score := some r.2, source_order := some r.1,
                reranked := true }]
  | none => acc

/-- `MemoryService._rerank_memories` with an explicit `top_n`: disabled
reranking keeps the original order truncated to `top_n`; an empty rerank
result (the API version's failure mode) falls back to the same; otherwise
the provider's results are folded through `rerank_build`. -/
def rerank_memories (enabled : Bool) (oracle : Except Unit (List (Nat × ℚ)))
    (query : String) (memories : List CtxMem) (top_n : Nat) : List CtxMem :=
  if memories = [] then []
  else if enabled = false then memories.take top_n
  else
    let documents := memories.map fun m =>
      "用户: " ++ m.user_message ++ "\n助手: " ++ m.ai_response
    let rerank_results := rerank_documents_api enabled oracle query documents top_n
    if rerank_results = [] then memories.take top_n
    else rerank_results.foldl (rerank_build memories) []

/-- `MemoryService.get_enhanced_context`: retrieve `max(2*max_memories,
10)` memories, rerank down to `max_memories` only when more than
`max_memories` came back, and format. -/
def get_enhanced_context (use_mysql_context : Bool) (window_size : Nat)
    (rows : List MsgRow) (dim : Nat) (faiss : List FRec) (recents : List GNode)
    (embedFn : String → List ℚ) (rerank_enabled : Bool)
    (oracle : Except Unit (List (Nat × ℚ))) (query : String) (max_memories : Nat)
    (conversation_id : Option Nat) : String × List CtxMem × Nat :=
  let r := retrieve_memories use_mysql_context window_size rows dim faiss recents
    embedFn query (max (max_memories * 2) 10) conversation_id
  let memories :=
    if max_memories < r.1.length then
      rerank_memories rerank_enabled oracle query r.1 max_memories
    else r.1
  (formatContext memories, memories, r.2.2)

/-- Witness for C7 at a concrete two-record store with `k = 1`. -/
def store1 : List FRec :=
  [⟨"用户: a\n助手: b", 7, none, [1, 0]⟩, ⟨"用户: c\n助手: d", 8, none, [0, 1]⟩]

/-- A one-node graph and a same-conversation candidate AT similarity
exactly 0.95, used to refute C5's half-open interval. -/
def gC5 : GraphState := ⟨[⟨5, "x", "y", "t", some 1⟩], []⟩

def simsC5 : List SRes := [⟨"u", "v", 5, 19 / 20, some 1⟩]

/-- A same-conversation candidate strictly above 0.95 for the C5 witness. -/
def simsC5w : List SRes := [⟨"u", "v", 5, 97 / 100, some 1⟩]

/-- A one-node graph holding a conversation-1 memory, target of a
cross-conversation edge from a GLOBAL (unscoped) write. -/
def gC8 : GraphState := ⟨[⟨5, "x", "y", "t", some 1⟩], []⟩

def simsC8 : List SRes := [⟨"u", "v", 5, 7 / 10, some 1⟩]

/-- A conversation-2 candidate well above the raised threshold, for the C8
witness (the new memory is scoped to conversation 1). -/
def gC8w : GraphState := ⟨[⟨5, "x", "y", "t", some 2⟩], []⟩

def simsC8w : List SRes := [⟨"u", "v", 5, 9 / 10, some 2⟩]

/-- The empty cross-store state used by the concrete write-path scenarios. -/
def emptState : SysState := ⟨0, 0, [], ⟨[], []⟩, []⟩

/-- A constant embedding oracle (every text gets the same vector, as two
saves of the identical turn would). -/
def embedConst : String → Except Unit (List ℚ) := fun _ => Except.ok [1, 0]

/-- A constant topic-extraction oracle. -/
def topicConst : String → String := fun _ => "t"

/-- First save of the turn ("a", "b") into conversation 1. -/
def firstSave : Option Nat × SysState :=
  save_conversation 2 embedConst topicConst (7 / 10) false "a" "b" (some 1) emptState

/-- Second save of the identical turn into the state the first left. -/
def secondSave : Option Nat × SysState :=
  save_conversation 2 embedConst topicConst (7 / 10) false "a" "b" (some 1) firstSave.2

/-- Conversation 42 with 20 prior turns (timestamps 0..19 in insertion
order), the C3 scenario. -/
def rows20 : List MsgRow := (List.range 20).map fun i => ⟨42, i, "u", "a"⟩

/-- A state with one FAISS record (timestamp 7) and the matching Neo4j
node whose topic contains "test", for the C4 scenario. -/
def stC4 : SysState :=
  ⟨3, 0, [⟨"用户: a\n助手: b", 7, none, [1, 0]⟩],
    ⟨[⟨7, "a", "b", "test mem", none⟩], []⟩, []⟩

/-- Conversation 1 with 6 prior turns, exceeding the memory budget 5 in
the C6 counterexample. -/
def rows6 : List MsgRow := (List.range 6).map fun i => ⟨1, i, "u", "a"⟩

/-! ## Theorems -/

theorem sqDist_nonneg (q v : List ℚ) : 0 ≤ sqDist q v := by
  apply List.sum_nonneg
  intro x hx
  obtain ⟨p, _, rfl⟩ := List.mem_map.mp hx
  exact mul_self_nonneg _

theorem ann_hits_nonneg (dim : Nat) (store : List FRec) (q : List ℚ) (k : Nat) :
    ∀ dr ∈ ann_hits dim store q k, 0 ≤ dr.1 := by
  intro dr hdr
  have h1 : dr ∈ (store.map fun r =>
      (sqDist (adjustDim dim q) r.embedding, r)).insertionSort distAsc :=
    List.mem_of_mem_take hdr
  have h2 := (List.perm_insertionSort distAsc _).subset h1
  obtain ⟨r, _, rfl⟩ := List.mem_map.mp h2
  exact sqDist_nonneg _ _

theorem processHit_similarity {cid : Option Nat} {dr : ℚ × FRec} {m : SRes}
    (h : processHit cid dr = some m) : m.similarity = 1 / (1 + dr.1) := by
  simp only [processHit] at h
  split at h
  · exact absurd h (by simp)
  · split at h
    · cases h
      rfl
    · exact absurd h (by simp)

theorem one_div_one_add_bounds {d : ℚ} (hd : 0 ≤ d) :
    0 ≤ 1 / (1 + d) ∧ 1 / (1 + d) ≤ 1 := by
  have h1 : (0 : ℚ) < 1 + d := by linarith
  constructor
  · positivity
  · rw [div_le_one h1]
    linarith

/-- C7: for every query embedding and every `k ≥ 1`, `FAISSMemoryStore.search`
returns at most `k` results, every returned similarity `1/(1+L2distance)`
lies in `[0,1]`, and the results are sorted in descending order of
similarity. -/
theorem search_le_k_bounded_sorted (dim : Nat) (store : List FRec) (q : List ℚ)
    (k : Nat) (cid : Option Nat) (hk : 1 ≤ k) :
    (memory_store_search dim store q k cid).length ≤ k ∧
    (∀ m ∈ memory_store_search dim store q k cid,
      0 ≤ m.similarity ∧ m.similarity ≤ 1) ∧
    List.Sorted simDesc (memory_store_search dim store q k cid) := by
  by_cases hs : store.isEmpty
  · rw [memory_store_search, if_pos hs]
    exact ⟨by simp, by simp, List.sorted_nil⟩
  · rw [memory_store_search, if_neg hs]
    refine ⟨?_, ?_, ?_⟩
    · simp only [List.length_take]
      exact min_le_left _ _
    · intro m hm
      have h1 : m ∈ ((ann_hits dim store q k).filterMap
          (processHit cid)).insertionSort simDesc := List.mem_of_mem_take hm
      have h2 := (List.perm_insertionSort simDesc _).subset h1
      obtain ⟨dr, hdr, hph⟩ := List.mem_filterMap.mp h2
      have hd := ann_hits_nonneg dim store q k dr hdr
      rw [processHit_similarity hph]
      exact one_div_one_add_bounds hd
    · exact List.Pairwise.sublist (List.take_sublist _ _)
        (List.sorted_insertionSort simDesc _)

theorem search_le_k_bounded_sorted_witness :
    (memory_store_search 2 store1 [1, 0] 1 none).length ≤ 1 ∧
    List.Sorted simDesc (memory_store_search 2 store1 [1, 0] 1 none) :=
  ⟨(search_le_k_bounded_sorted 2 store1 [1, 0] 1 none (by decide)).1,
   (search_le_k_bounded_sorted 2 store1 [1, 0] 1 none (by decide)).2.2⟩

/-- Any edge present after one pass of the relationship loop body either
was already there or records the processed candidate's similarity, which
then lies in `[effective_threshold, 0.95]`, with the `cross_conversation`
tag set iff the candidate is from another conversation. -/
theorem relation_step_edges (thr : ℚ) (cid : Option Nat) (ts : Nat)
    (acc : GraphState × List Nat) (m : SRes) :
    ∀ e ∈ (relation_step thr cid ts acc m).1.edges,
      e ∈ acc.1.edges ∨
        (effective_threshold thr cid m ≤ m.similarity ∧
         m.similarity ≤ 19 / 20 ∧ e.similarity = m.similarity ∧
         e.cross_conversation = !decide (m.conversation_id = cid)) := by
  intro e he
  unfold relation_step at he
  dsimp only at he
  split at he
  case isTrue h1 =>
    split at he
    · exact Or.inl he
    · dsimp only at he
      split at he
      · rcases List.mem_append.mp he with h | h
        · exact Or.inl h
        · right
          refine ⟨h1.2.1, h1.2.2, ?_⟩
          rcases List.mem_cons.mp h with rfl | h2
          · exact ⟨rfl, rfl⟩
          · rcases List.mem_cons.mp h2 with rfl | h3
            · exact ⟨rfl, rfl⟩
            · exact absurd h3 (List.not_mem_nil _)
      · exact Or.inl he
  case isFalse => exact Or.inl he

/-- Fold-invariant for the relationship loop: a property holding of all
initial edges and of every edge any loop iteration can add holds of all
edges after the fold. -/
theorem foldl_relation_step_edges (thr : ℚ) (cid : Option Nat) (ts : Nat)
    (l : List SRes) (acc : GraphState × List Nat) (P : GEdge → Prop)
    (hacc : ∀ e ∈ acc.1.edges, P e)
    (hnew : ∀ m ∈ l, ∀ e : GEdge,
      (effective_threshold thr cid m ≤ m.similarity ∧
       m.similarity ≤ 19 / 20 ∧ e.similarity = m.similarity ∧
       e.cross_conversation = !decide (m.conversation_id = cid)) → P e) :
    ∀ e ∈ (l.foldl (relation_step thr cid ts) acc).1.edges, P e := by
  induction l generalizing acc with
  | nil => exact hacc
  | cons m l ih =>
    intro e he
    simp only [List.foldl_cons] at he
    refine ih (relation_step thr cid ts acc m) ?_ ?_ e he
    · intro e2 he2
      rcases relation_step_edges thr cid ts acc m e2 he2 with h | h
      · exact hacc e2 h
      · exact hnew m (List.mem_cons_self _ _) e2 h
    · intro m2 hm2 e2 h
      exact hnew m2 (List.mem_cons_of_mem _ hm2) e2 h

/-- Every edge present after `create_memory_with_relations` either predates
the call or records some candidate's similarity, constrained to
`[effective_threshold, 0.95]` and tagged `cross_conversation` iff that
candidate came from another conversation. -/
theorem create_edges_spec (topicFn : String → String) (user ai : String)
    (sims : List SRes) (thr : ℚ) (cid : Option Nat) (clock : Nat)
    (g : GraphState) :
    ∀ e ∈ (create_memory_with_relations topicFn user ai sims thr cid
        clock g).2.2.edges,
      e ∈ g.edges ∨ ∃ m ∈ sims,
        effective_threshold thr cid m ≤ m.similarity ∧
        m.similarity ≤ 19 / 20 ∧ e.similarity = m.similarity ∧
        e.cross_conversation = !decide (m.conversation_id = cid) := by
  intro e he
  unfold create_memory_with_relations at he
  cases hf : sims.find? (dedup_pred cid) with
  | some m =>
    rw [hf] at he
    exact Or.inl he
  | none =>
    rw [hf] at he
    dsimp only at he
    refine foldl_relation_step_edges thr cid clock _ _
      (fun e2 => e2 ∈ g.edges ∨ ∃ m ∈ sims,
        effective_threshold thr cid m ≤ m.similarity ∧
        m.similarity ≤ 19 / 20 ∧ e2.similarity = m.similarity ∧
        e2.cross_conversation = !decide (m.conversation_id = cid))
      ?_ ?_ e he
    · intro e2 he2
      exact Or.inl he2
    · intro m hm e2 h
      exact Or.inr ⟨m, (List.perm_insertionSort candDesc sims).subset hm, h⟩

/-- C5 counterexample: at candidate similarity EXACTLY 0.95 the write is
NOT treated as a duplicate (the code tests `> 0.95` strictly) and a
`SIMILAR_TO` edge IS created (the code tests `<= 0.95` inclusively): a new
node appears and the edge with similarity 0.95 exists, contradicting the
claimed half-open `[threshold, 0.95)` edge interval and dedup at `≥ 0.95`. -/
theorem edge_created_at_dedup_cutoff :
    (create_memory_with_relations (fun _ => "t") "a" "b" simsC5 (7 / 10)
        (some 1) 9 gC5).2.2.nodes.length = 2 ∧
    (⟨9, 5, 19 / 20, false⟩ : GEdge) ∈
      (create_memory_with_relations (fun _ => "t") "a" "b" simsC5 (7 / 10)
        (some 1) 9 gC5).2.2.edges := by with_unfolding_all decide

/-- C5 (amended): the duplicate branch fires exactly when some candidate —
same-conversation, or any candidate when the write is global — has
similarity STRICTLY above 0.95, in which case that first candidate's
timestamp is returned and nothing is written; and every edge the write
creates records a candidate similarity inside the CLOSED interval
`[effective_threshold, 0.95]`. -/
theorem dedup_strict_and_edge_interval (topicFn : String → String)
    (user ai : String) (sims : List SRes) (thr : ℚ) (cid : Option Nat)
    (clock : Nat) (g : GraphState) :
    (∀ m : SRes, sims.find? (dedup_pred cid) = some m →
      create_memory_with_relations topicFn user ai sims thr cid clock g =
        (m.timestamp, clock + 1, g)) ∧
    (∀ e ∈ (create_memory_with_relations topicFn user ai sims thr cid
        clock g).2.2.edges,
      e ∈ g.edges ∨ ∃ m ∈ sims,
        effective_threshold thr cid m ≤ m.similarity ∧
        m.similarity ≤ 19 / 20 ∧ e.similarity = m.similarity) := by
  constructor
  · intro m hm
    unfold create_memory_with_relations
    rw [hm]
  · intro e he
    rcases create_edges_spec topicFn user ai sims thr cid clock g e he with
      h | ⟨m, hm, h1, h2, h3, _⟩
    · exact Or.inl h
    · exact Or.inr ⟨m, hm, h1, h2, h3⟩

theorem dedup_strict_and_edge_interval_witness :
    create_memory_with_relations (fun _ => "t") "a" "b" simsC5w (7 / 10)
      (some 1) 9 gC5 = (5, 10, gC5) :=
  (dedup_strict_and_edge_interval (fun _ => "t") "a" "b" simsC5w (7 / 10)
    (some 1) 9 gC5).1 ⟨"u", "v", 5, 97 / 100, some 1⟩ (by with_unfolding_all decide)

/-- C8 counterexample: when the NEW memory is global (`conversation_id =
None`), the raised threshold is never applied (`if not same_conversation
and conversation_id is not None`), so an edge tagged `cross_conversation`
is created at the base threshold 0.7, strictly below
`threshold + margin = 0.8`. -/
theorem global_cross_edge_at_base_threshold :
    (⟨9, 5, 7 / 10, true⟩ : GEdge) ∈
      (create_memory_with_relations (fun _ => "t") "a" "b" simsC8 (7 / 10)
        none 9 gC8).2.2.edges ∧
    (7 / 10 : ℚ) < 7 / 10 + 1 / 10 := by with_unfolding_all decide

/-- C8 (amended): when the NEW memory is conversation-scoped, every newly
created edge tagged `cross_conversation` records a similarity of at least
`max(threshold + 0.1, 0.8)`. -/
theorem scoped_cross_edges_require_margin (topicFn : String → String)
    (user ai : String) (sims : List SRes) (thr : ℚ) (c : Nat) (clock : Nat)
    (g : GraphState) (e : GEdge)
    (he : e ∈ (create_memory_with_relations topicFn user ai sims thr (some c)
      clock g).2.2.edges)
    (hnew : e ∉ g.edges) (hcross : e.cross_conversation = true) :
    max (thr + 1 / 10) (4 / 5) ≤ e.similarity := by
  rcases create_edges_spec topicFn user ai sims thr (some c) clock g e he with
    h | ⟨m, _, h1, _, h3, h4⟩
  · exact absurd h hnew
  · rw [h3]
    have hne : ¬m.conversation_id = some c := by
      have h5 := h4.symm.trans hcross
      simpa using h5
    unfold effective_threshold at h1
    rw [if_pos ⟨hne, by simp⟩] at h1
    exact h1

theorem scoped_cross_edges_require_margin_witness :
    max ((7 : ℚ) / 10 + 1 / 10) (4 / 5) ≤
      (⟨9, 5, 9 / 10, true⟩ : GEdge).similarity :=
  scoped_cross_edges_require_margin (fun _ => "t") "a" "b" simsC8w (7 / 10) 1 9
    gC8w ⟨9, 5, 9 / 10, true⟩ (by with_unfolding_all decide) (by with_unfolding_all decide)
    (by with_unfolding_all decide)

/-- C1: the write path does NOT propagate its timestamp to the graph store.
`save_conversation` returns timestamp 0 and stamps the FAISS record with it,
but no Neo4j `Memory` node exists afterwards at all: the FAISS write happens
BEFORE the candidate search, so the turn's own vector comes back as a
similarity-1 candidate and `create_memory_with_relations` takes its
duplicate branch. Moreover `create_memory_with_relations` takes no
timestamp argument: called directly (empty candidate list, clock 42) it
stamps the node with its OWN freshly generated timestamp 42 — the join key
claimed by the spec is never propagated. -/
theorem save_write_path_breaks_timestamp_join :
    firstSave.1 = some 0 ∧
    firstSave.2.faiss.map (fun r => r.timestamp) = [0] ∧
    firstSave.2.graph.nodes = [] ∧
    (create_memory_with_relations topicConst "a" "b" [] (7 / 10) (some 1) 42
      ⟨[], []⟩).2.2.nodes.map (fun n => n.timestamp) = [42] := by
  with_unfolding_all decide

/-- C2: saving the identical (user_message, ai_response) pair twice in the
same conversation is NOT idempotent on the returned identifier: the second
save's duplicate detection fires (the stored vector matches at similarity
1 ≥ 0.95), yet `save_conversation` returns a FRESH timestamp (2, not the
first save's 0) because the timestamp `create_memory_with_relations`
returns is discarded, and a second FAISS record IS created. -/
theorem second_save_returns_fresh_timestamp :
    firstSave.1 = some 0 ∧
    secondSave.1 = some 2 ∧
    secondSave.1 ≠ firstSave.1 ∧
    secondSave.2.faiss.map (fun r => r.timestamp) = [0, 2] ∧
    secondSave.2.graph.nodes = [] := by
  with_unfolding_all decide

/-- C3: with 20 prior turns and window 15, the history short-circuit fires
(zero embedding calls) but `_retrieve_memories` returns the OLDEST 15 turns
(`ORDER BY created_at ASC LIMIT 15 OFFSET 0`), not the last 15; and
`get_context`'s own MySQL branch returns the newest 15 in
REVERSE-chronological order (`sort_asc=False`), also with zero embedding
calls. Neither path yields the claimed last-15-chronological window. -/
theorem history_window_returns_oldest_not_latest :
    (retrieve_memories true 15 rows20 2 [] [] (fun _ => [1, 0]) "q" 5
      (some 42)).2.2 = 0 ∧
    (retrieve_memories true 15 rows20 2 [] [] (fun _ => [1, 0]) "q" 5
      (some 42)).1.map (fun m => m.timestamp) = List.range 15 ∧
    (retrieve_memories true 15 rows20 2 [] [] (fun _ => [1, 0]) "q" 5
      (some 42)).1.map (fun m => m.timestamp) ≠ (List.range 20).drop 5 ∧
    (get_context true 15 rows20 2 [] [] (fun _ => [1, 0]) "q" 5
      (some 42)).2.2 = 0 ∧
    (get_context true 15 rows20 2 [] [] (fun _ => [1, 0]) "q" 5
      (some 42)).2.1.map (fun m => m.timestamp) =
      ((List.range 20).drop 5).reverse := by
  with_unfolding_all decide

/-- C4: `MemoryService.clear_memories_by_keyword` ALWAYS returns `(0, [])`
and never touches the FAISS store, because it unpacks the bare `int` the
Neo4j method returns as a tuple — a `TypeError` the blanket `except`
swallows — while the Neo4j deletion has already run. Concretely: one node
matches "test" and is deleted from the graph, yet the reported count is 0
and the FAISS record remains. (The FAISS cleanup could not run anyway:
`FAISSMemoryStore` has no `remove_by_timestamp` method.) -/
theorem keyword_clear_returns_zero_and_leaves_faiss :
    (∀ (st : SysState) (kw : String),
      service_clear_memories_by_keyword st kw =
        ((0, []),
          { st with graph := (neo4j_clear_memories_by_keyword st.graph kw).2 })) ∧
    stC4.graph.nodes.length = 1 ∧
    (service_clear_memories_by_keyword stC4 "test").1 = (0, []) ∧
    (service_clear_memories_by_keyword stC4 "test").2.graph.nodes = [] ∧
    (service_clear_memories_by_keyword stC4 "test").2.faiss.map
      (fun r => r.timestamp) = [7] := by
  refine ⟨fun st kw => rfl, ?_, ?_, ?_, ?_⟩
  · rfl
  · rfl
  · with_unfolding_all decide
  · with_unfolding_all decide

/-- C6 counterexample: `get_context` with budget `max_memories = 5` returns
SIX memories — its MySQL branch returns everything the window (15) fetched
whenever the result is non-empty, ignoring `max_memories` entirely. -/
theorem get_context_exceeds_budget :
    5 < (get_context true 15 rows6 2 [] [] (fun _ => [1, 0]) "q" 5
      (some 1)).2.1.length := by
  with_unfolding_all decide

theorem rerank_build_length (memories : List CtxMem) (acc : List CtxMem)
    (r : Nat × ℚ) :
    (rerank_build memories acc r).length ≤ acc.length + 1 := by
  unfold rerank_build
  cases memories[r.1]? with
  | some m => simp
  | none => simp

theorem foldl_rerank_build_length (memories : List CtxMem)
    (l : List (Nat × ℚ)) (init : List CtxMem) :
    (l.foldl (rerank_build memories) init).length ≤ init.length + l.length := by
  induction l generalizing init with
  | nil => simp
  | cons r l ih =>
    simp only [List.foldl_cons, List.length_cons]
    calc (l.foldl (rerank_build memories) (rerank_build memories init r)).length
        ≤ (rerank_build memories init r).length + l.length := ih _
      _ ≤ init.length + 1 + l.length := by
          have := rerank_build_length memories init r
          omega
      _ = init.length + (l.length + 1) := by omega

theorem rerank_documents_api_length_le (enabled : Bool)
    (oracle : Except Unit (List (Nat × ℚ))) (query : String)
    (documents : List String) (top_n : Nat)
    (hor : ∀ res, oracle = Except.ok res → res.length ≤ top_n) :
    (rerank_documents_api enabled oracle query documents top_n).length ≤ top_n := by
  unfold rerank_documents_api
  split
  · simp
  · split
    · simp
    · cases oracle with
      | error e => simp
      | ok res => exact hor res rfl

theorem rerank_memories_length_le (enabled : Bool)
    (oracle : Except Unit (List (Nat × ℚ))) (query : String)
    (memories : List CtxMem) (top_n : Nat)
    (hor : ∀ res, oracle = Except.ok res → res.length ≤ top_n) :
    (rerank_memories enabled oracle query memories top_n).length ≤ top_n := by
  unfold rerank_memories
  split
  · simp
  · split
    · simp [List.length_take]
    · dsimp only
      split
      · simp [List.length_take]
      · calc ((rerank_documents_api enabled oracle query _ top_n).foldl
              (rerank_build memories) []).length
            ≤ ([] : List CtxMem).length +
              (rerank_documents_api enabled oracle query _ top_n).length :=
              foldl_rerank_build_length _ _ _
          _ ≤ top_n := by
              simpa using rerank_documents_api_length_le enabled oracle query _
                top_n hor

/-- C6 (amended): `get_enhanced_context` respects the budget — its memory
list never exceeds `max_memories`, provided the external rerank provider
honours its `top_n` argument (returns at most `top_n` results); but
`get_context` does not (see the counterexample), its history branch being
bounded only by the window size. -/
theorem enhanced_context_respects_budget (use_mysql_context : Bool)
    (window_size : Nat) (rows : List MsgRow) (dim : Nat) (faiss : List FRec)
    (recents : List GNode) (embedFn : String → List ℚ) (rerank_enabled : Bool)
    (oracle : Except Unit (List (Nat × ℚ))) (query : String) (max_memories : Nat)
    (conversation_id : Option Nat)
    (hor : ∀ res, oracle = Except.ok res → res.length ≤ max_memories) :
    (get_enhanced_context use_mysql_context window_size rows dim faiss recents
      embedFn rerank_enabled oracle query max_memories
      conversation_id).2.1.length ≤ max_memories := by
  unfold get_enhanced_context
  dsimp only
  split
  · exact rerank_memories_length_le rerank_enabled oracle query _ max_memories hor
  · next h => omega

/-- Witness for C6 at a concrete failed-provider instantiation. -/
theorem enhanced_context_respects_budget_witness :
    (get_enhanced_context true 15 rows6 2 [] [] (fun _ => [1, 0]) true
      (Except.error ()) "q" 5 (some 1)).2.1.length ≤ 5 :=
  enhanced_context_respects_budget true 15 rows6 2 [] [] (fun _ => [1, 0]) true
    (Except.error ()) "q" 5 (some 1) (fun res h => by cases h)

/-- C9 counterexample: the rerank function `memory_service.py` actually
imports (`core/embedding.py`) does NOT return the candidates with neutral
score 1.0 when reranking is disabled — it returns the empty list, which is
not the claimed `[(0, 1.0)]` for a one-document input. -/
theorem api_rerank_disabled_returns_empty :
    rerank_documents_api false (Except.ok [((0 : Nat), (1 : ℚ))]) "q" ["d"] 1 = [] ∧
    ([] : List (Nat × ℚ)) ≠ [((0 : Nat), (1 : ℚ))] := by
  constructor
  · rfl
  · simp

/-- C9 (amended): no rerank path propagates an error; when reranking is
disabled or the provider call fails, `utils/rerank.py`'s
`rerank_documents` returns the first `min(top_n, n)` indices in original
order with neutral score 1.0, while the `core/embedding.py`
`rerank_documents` used by the memory service returns the empty list, and
`MemoryService._rerank_memories` then falls back to the original candidates
truncated to `top_n` (without neutral scores). -/
theorem rerank_degrades_without_error (query : String) (documents : List String)
    (top_n : Nat) (scoreOracle : Except Unit (List ℚ))
    (apiOracle : Except Unit (List (Nat × ℚ))) (memories : List CtxMem)
    (tn : Nat) :
    rerank_documents_util false scoreOracle query documents top_n =
      (List.range (min top_n documents.length)).map (fun i => (i, 1)) ∧
    rerank_documents_util true (Except.error ()) query documents top_n =
      (List.range (min top_n documents.length)).map (fun i => (i, 1)) ∧
    rerank_documents_api false apiOracle query documents top_n = [] ∧
    rerank_documents_api true (Except.error ()) query documents top_n = [] ∧
    rerank_memories false apiOracle query memories tn = memories.take tn ∧
    rerank_memories true (Except.error ()) query memories tn =
      memories.take tn := by
  refine ⟨?_, ?_, ?_, ?_, ?_, ?_⟩
  · unfold rerank_documents_util
    split
    · next h => simp [h]
    · rfl
  · unfold rerank_documents_util
    split
    · next h => simp [h]
    · rfl
  · unfold rerank_documents_api
    split
    · rfl
    · rfl
  · unfold rerank_documents_api
    split
    · rfl
    · rfl
  · unfold rerank_memories
    split
    · next h => simp [h]
    · rfl
  · unfold rerank_memories
    split
    · next h => simp [h]
    · next h =>
      dsimp only
      rw [if_neg (by simp)]
      rw [show rerank_documents_api true (Except.error ()) query
          (memories.map fun m =>
            "用户: " ++ m.user_message ++ "\n助手: " ++ m.ai_response) tn = []
        from by
          unfold rerank_documents_api
          split
          · rfl
          · rfl]
      rw [if_pos rfl]

/-- C10: `save_conversation` returns "" (modelled `none`) and leaves every
store and the embedding-call counter untouched whenever either message is
empty, or whenever an unexpected exception is raised inside its `try`
(which can only happen before any write): callers can detect a skipped or
failed save by the empty identifier. -/
theorem empty_or_failed_save_returns_empty (dim : Nat)
    (embedFn : String → Except Unit (List ℚ)) (topicFn : String → String)
    (similarity_threshold : ℚ) (gen_fail : Bool) (user_message ai_response : String)
    (conversation_id : Option Nat) (st : SysState)
    (h : user_message = "" ∨ ai_response = "" ∨ gen_fail = true) :
    save_conversation dim embedFn topicFn similarity_threshold gen_fail
      user_message ai_response conversation_id st = (none, st) := by
  unfold save_conversation
  rcases h with h | h | h
  · rw [if_pos (Or.inl h)]
  · rw [if_pos (Or.inr h)]
  · by_cases h2 : user_message = "" ∨ ai_response = ""
    · rw [if_pos h2]
    · rw [if_neg h2, if_pos h]

theorem empty_or_failed_save_returns_empty_witness :
    save_conversation 2 embedConst topicConst (7 / 10) false "" "b" none
      emptState = (none, emptState) :=
  empty_or_failed_save_returns_empty 2 embedConst topicConst (7 / 10) false ""
    "b" none emptState (Or.inl rfl)
